import Mathlib

/-!
Verification of the particle shape generation & real-time animation engine.

The source is a TypeScript/React application.  This file gives a shallow
embedding of its core numeric algorithms in Lean 4:

* `src/utils/shapes.ts` — procedural point-cloud generators (`generateParticles`
  and its helpers), embedded over `ℝ` with the JavaScript `Math.random()`
  stream made explicit as a function argument;
* `src/components/DrawingCanvas.tsx` (`processAndSave`) — arc-length stroke
  resampling;
* the per-frame updater of the particle scene — shape-transition decay,
  mode-dependent expansion/vortex/noise, and exponential-smoothing
  integration.

Floating-point numbers are modelled as real numbers (decimal literals become
exact rationals); `Float32Array` buffers become `List ℝ`; the RNG becomes an
explicit stream of draws in `[0,1)`.

The file is organized as definitions first, then the theorems.
-/

namespace Spec2Proof

/-! # Definitions -/

/-! ## Shape-transition intensity (decay state machine)

Source: the `useFrame` body,
`if (transitionRef.current > 0) { transitionRef.current *= 0.92;
 if (transitionRef.current < 0.01) transitionRef.current = 0; }`,
and the shape-change trigger
`if (prevShapeRef.current !== currentShape) { transitionRef.current = 1.0; ... }`.
All arithmetic on the intensity is rational, so it is modelled over `ℚ`. -/

/-- One per-frame decay step of the transition intensity. -/
def decayStep (t : ℚ) : ℚ :=
  if 0 < t then
    (if (23/25) * t < 1/100 then 0 else (23/25) * t)
  else t

/-- Shape-change handling: a changed shape identifier resets intensity to 1. -/
def onShapeChange (prevShape currentShape : String) (t : ℚ) : ℚ :=
  if prevShape ≠ currentShape then 1 else t

/-- All intensity values reachable from the initial state `0` by shape changes
and per-frame decay steps. -/
inductive IntensityReachable : ℚ → Prop
  | init : IntensityReachable 0
  | change (t : ℚ) : IntensityReachable t → IntensityReachable 1
  | frame (t : ℚ) : IntensityReachable t → IntensityReachable (decayStep t)

/-! ## The integration step

Source: `physicsPositions.current[pIdx] += (tx - currentX) * lerpBase;`
(and the analogous `positions[i3] += (tx - positions[i3]) * lerpSpeed;`
in `ParticleScene.tsx`). -/

/-- One exponential-smoothing integration step toward the target. -/
def integrateStep (lerpBase target cur : ℝ) : ℝ :=
  cur + (target - cur) * lerpBase

/-- Iterated integration toward a constant target. -/
def integrateIter (lerpBase target : ℝ) (x : ℝ) : ℕ → ℝ
  | 0 => x
  | k + 1 => integrateStep lerpBase target (integrateIter lerpBase target x k)

/-! ## Stroke resampling (`processAndSave` in `DrawingCanvas.tsx`)

A stroke is an ordered list of 2D canvas points.  The imperative walker of the
source keeps a persistent `(distanceWalked, currentSegIdx)` cursor; since the
target distances `i * step` are nondecreasing and the cumulative segment
lengths are nondecreasing, that cursor always stops at the *first* segment
whose cumulative length reaches the target distance, which is how `findSegment`
is written here.  RNG draws are explicit streams: `jr k` is the depth-jitter
draw consumed by the `k`-th placed point, `fr` the draws of the fill loop. -/

structure Pt2 where
  x : ℝ
  y : ℝ

/-- Euclidean length of one polyline segment
(`Math.sqrt(dx*dx + dy*dy)` in the source). -/
noncomputable def segLen (p q : Pt2) : ℝ :=
  Real.sqrt ((q.x - p.x) ^ 2 + (q.y - p.y) ^ 2)

/-- Consecutive segment pairs of a stroke. -/
def segsOf : List Pt2 → List (Pt2 × Pt2)
  | p :: q :: rest => (p, q) :: segsOf (q :: rest)
  | _ => []

/-- Polyline arc length of a stroke (`pLen` accumulation in the source). -/
noncomputable def pathLength (path : List Pt2) : ℝ :=
  ((segsOf path).map fun s => segLen s.1 s.2).sum

/-- Point budget of one stroke:
`Math.floor((pathLengths[idx] / totalLength) * COUNT)`. -/
noncomputable def allocPoints (len total : ℝ) (targetCount : ℕ) : ℕ :=
  (⌊len / total * targetCount⌋).toNat

/-- The segment search of the walker: scan segments accumulating
`distanceWalked` until `distanceWalked + segLen >= targetDist`, then linearly
interpolate inside that segment. -/
noncomputable def findSegment : List (Pt2 × Pt2) → ℝ → ℝ → Option Pt2
  | [], _, _ => none
  | (p1, p2) :: rest, dw, td =>
      let sl := segLen p1 p2
      if td ≤ dw + sl then
        some ⟨p1.x + (p2.x - p1.x) * ((td - dw) / sl),
              p1.y + (p2.y - p1.y) * ((td - dw) / sl)⟩
      else findSegment rest (dw + sl) td

/-- Walk one stroke at the uniform step `pLen / numPoints`
(the `for(let i=0; i<numPointsForPath ...)` loop). -/
noncomputable def walkPath (path : List Pt2) (numPoints : ℕ) (pLen : ℝ) : List Pt2 :=
  if path.length < 2 then []
  else (List.range numPoints).filterMap fun i : ℕ =>
    findSegment (segsOf path) 0 ((i : ℝ) * (pLen / numPoints))

/-- All walk-placed points of a drawing, in placement order, normalized to the
centered 3D space.  The `i`-th placed point consumes jitter draw `jr i`, and at
most `targetCount` points are placed (the `pIdx < COUNT` guard). -/
noncomputable def placedPoints (paths : List (List Pt2)) (targetCount : ℕ)
    (w h : ℝ) (jr : ℕ → ℝ) : List (ℝ × ℝ × ℝ) :=
  let total := (paths.map pathLength).sum
  let raw2D := (paths.map fun p =>
    if total = 0 then []
    else walkPath p (allocPoints (pathLength p) total targetCount) (pathLength p)).flatten
  let placed2D := raw2D.take targetCount
  let scale := min w h / 5
  placed2D.enum.map fun ip =>
    ((ip.2.x - w / 2) / scale, -(ip.2.y - h / 2) / scale, (jr ip.1 - 1/2) * (1/2))

/-- The fill loop: while fewer than `targetCount` points are placed, duplicate
the point at index `Math.floor(Math.random() * pIdx)`; an absent source point
reads the zero-initialized buffer (`(0,0,0)`). -/
noncomputable def fillLoop (fr : ℕ → ℝ) : ℕ → List (ℝ × ℝ × ℝ) → List (ℝ × ℝ × ℝ)
  | 0, ps => ps
  | fuel + 1, ps =>
      fillLoop fr fuel
        (ps ++ [ps.getD (⌊fr ps.length * ps.length⌋).toNat (0, 0, 0)])

/-- Flatten point triples into a flat coordinate buffer. -/
def flat3 (ps : List (ℝ × ℝ × ℝ)) : List ℝ :=
  ps.flatMap fun p => [p.1, p.2.1, p.2.2]

/-- The full resampler of `processAndSave`: `none` models the early
`onClose()` return on degenerate input (fewer than 2 total points). -/
noncomputable def resample (paths : List (List Pt2)) (targetCount : ℕ)
    (w h : ℝ) (jr fr : ℕ → ℝ) : Option (List ℝ) :=
  if (paths.flatten).length < 2 then none
  else
    let placed := placedPoints paths targetCount w h jr
    some (flat3 (fillLoop fr (targetCount - placed.length) placed))

/-! ## Procedural shape sampling (`src/utils/shapes.ts`)

`Math.random()` is modelled as an explicit stream: particle `i` of a
generation call reads the stream `rand i`, whose `j`-th value is the `j`-th
`Math.random()` draw made while computing that particle.  Draws lie in `[0,1)`
where a property needs it.  The shape identifier is the runtime string value
of the `ShapeType` enum (`src/types.ts`), so unrecognized identifiers are
representable and take the `default` branch.

The heart sampler's `while (!found)` rejection loop is modelled by choosing
the first accepted attempt when one exists (attempt `n` consumes draws
`3n, 3n+1, 3n+2`); on a stream with no accepted attempt — where the source
loop would not terminate, a probability-zero event for the real RNG — the
model returns the origin. -/

/-- The implicit heart-surface polynomial
`(x² + 9/4·y² + z² − 1)³ − x²z³ − (9/80)·y²z³`. -/
noncomputable def heartF (x y z : ℝ) : ℝ :=
  (x ^ 2 + (9/4) * y ^ 2 + z ^ 2 - 1) ^ 3 - x ^ 2 * z ^ 3 - (9/80) * y ^ 2 * z ^ 3

/-- Candidate coordinates of rejection attempt `n`:
`Math.random() * 3 - 1.5` three times. -/
noncomputable def heartAttempt (r : ℕ → ℝ) (n : ℕ) : ℝ × ℝ × ℝ :=
  (r (3 * n) * 3 - 1.5, r (3 * n + 1) * 3 - 1.5, r (3 * n + 2) * 3 - 1.5)

/-- Acceptance test of the rejection loop (`result < 0`). -/
def heartAccepts (r : ℕ → ℝ) (n : ℕ) : Prop :=
  heartF (heartAttempt r n).1 (heartAttempt r n).2.1 (heartAttempt r n).2.2 < 0

open Classical in
/-- `getVolumetricHeartPoint`: rejection-sample the solid heart, swap the `y`
and `z` axes (`p.set(x, z, y)`) and scale (`p.multiplyScalar(scale)`). -/
noncomputable def getVolumetricHeartPoint (scale : ℝ) (r : ℕ → ℝ) : ℝ × ℝ × ℝ :=
  if h : ∃ n, heartAccepts r n then
    ((heartAttempt r (Nat.find h)).1 * scale,
     (heartAttempt r (Nat.find h)).2.2 * scale,
     (heartAttempt r (Nat.find h)).2.1 * scale)
  else (0, 0, 0)

/-- `getRandomPointInSphere`: uniform point in a solid sphere,
`Math.cbrt`-scaled radius for uniform density.  Draws: `u = r 0`, `v = r 1`,
cube-rooted `r 2`. -/
noncomputable def getRandomPointInSphere (radius : ℝ) (r : ℕ → ℝ) : ℝ × ℝ × ℝ :=
  let theta := 2 * Real.pi * r 0
  let phi := Real.arccos (2 * r 1 - 1)
  let rr := (r 2) ^ ((1:ℝ)/3) * radius
  (rr * Real.sin phi * Real.cos theta,
   rr * Real.sin phi * Real.sin theta,
   rr * Real.cos phi)

/-- The eight `orbitRadii` of the solar-system shape. -/
noncomputable def orbitRadii : List ℝ := [1.5, 2.2, 3.2, 4.5, 6.5, 8.5, 10.5, 12.5]

/-- The eight solar-system planets as `(r, size, angle)` triples. -/
noncomputable def solarPlanets : List (ℝ × ℝ × ℝ) :=
  [(1.5, 0.1, 0), (2.2, 0.18, 1.2), (3.2, 0.2, 2.5), (4.5, 0.15, 4.0),
   (6.5, 0.5, 5.5), (8.5, 0.45, 0.5), (10.5, 0.3, 2.0), (12.5, 0.3, 3.5)]

/-- One particle of `generateParticles`: the body of the per-particle `switch`
on the runtime string value of the shape identifier.  `i` is the particle
index, `count` the total count, `r` the particle's draw stream. -/
noncomputable def generatePoint (shape : String) (i count : ℕ) (r : ℕ → ℝ) : ℝ × ℝ × ℝ :=
  match shape with
  | "Heart" => getVolumetricHeartPoint 2.0 r
  | "Double Heart" =>
      let p := getVolumetricHeartPoint 1.8 (fun j => r (j + 1))
      if r 0 < 0.5 then (p.1 - 0.8, p.2.1, p.2.2)
      else
        (p.1 * Real.cos (Real.pi / 4) - p.2.2 * Real.sin (Real.pi / 4) + 0.8,
         p.2.1,
         p.1 * Real.sin (Real.pi / 4) + p.2.2 * Real.cos (Real.pi / 4))
  | "Galaxy" =>
      let armIndex := i % 3
      let randomOffset := r 0
      let angle := randomOffset * Real.pi * 4 + armIndex * (Real.pi * 2 / 3)
      let distance := 0.2 + randomOffset * 3.5
      (Real.cos angle * distance + (r 2 - 0.5) * 0.2,
       (r 1 - 0.5) * (1 - randomOffset) * 0.8,
       Real.sin angle * distance + (r 3 - 0.5) * 0.2)
  | "DNA" =>
      let t := ((i : ℝ) / count) * Real.pi * 20
      let yPos := ((i : ℝ) / count) * 6.0 - 6.0 / 2
      if i % 10 = 0 then
        let tRung := (⌊((i : ℝ) / count) * 20⌋ : ℝ) * Real.pi
        let mix := r 0
        (Real.cos tRung * 1.0 * (mix * 2 - 1), yPos, Real.sin tRung * 1.0 * (mix * 2 - 1))
      else
        let offset := if i % 2 = 0 then (0 : ℝ) else Real.pi
        (Real.cos (t + offset) * 1.0, yPos, Real.sin (t + offset) * 1.0)
  | "Flower" =>
      let theta := r 0 * Real.pi * 2
      let rRose := 3 * Real.cos (5 * theta)
      let r2 := r 1 * 2
      ((rRose + r2) * Real.cos theta, (rRose + r2) * Real.sin theta, (r 2 - 0.5) * 1.5)
  | "Flower Sea" =>
      let x := (r 0 - 0.5) * 14
      let z := (r 1 - 0.5) * 14
      (x, Real.sin (x * 0.5) * Real.cos (z * 0.5) * 1.5 - 2.5 + 1.0 + r 2 * 0.6, z)
  | "Ring" =>
      if r 0 < 0.15 then
        let hgt := r 1 * 1.5
        let rad := (1 - |hgt - 0.75| / 0.75) * 0.8
        let theta := r 2 * Real.pi * 2
        (rad * Real.cos theta, hgt + 2.0, rad * Real.sin theta)
      else
        let minorR := 0.2 + r 1 * 0.1
        let u := r 2 * Real.pi * 2
        let v := r 3 * Real.pi * 2
        ((2.0 + minorR * Real.cos v) * Real.sin u,
         (2.0 + minorR * Real.cos v) * Real.cos u,
         minorR * Real.sin v)
  | "Butterfly" =>
      let t := r 0 * Real.pi * 4
      let rr := Real.exp (Real.cos t) - 2 * Real.cos (4 * t) + (Real.sin (t / 12)) ^ 5
      let x := rr * Real.sin t * 0.8
      let y := rr * Real.cos t * 0.8
      let dist := Real.sqrt (x ^ 2 + y ^ 2)
      (x, y, |x| * 0.5 * Real.sin (dist * 0.5) + (r 1 - 0.5) * 0.5)
  | "I Love U" =>
      if r 0 < 0.2 then
        (-2.5 + r 1 * 0.5, r 2 * 4 - 2, (r 3 - 0.5) * 0.5)
      else if r 0 < 0.6 then
        getVolumetricHeartPoint 1.2 (fun j => r (j + 1))
      else
        let t := r 1 * Real.pi
        let ux := Real.cos (t + Real.pi) * 1.5
        let uy := Real.sin (t + Real.pi) * 1.5 * 1.5
        if r 2 > 0.7 then
          (ux + 2.5, uy + r 3 * 2 + 0.5, (r 4 - 0.5) * 0.5)
        else
          (ux + 2.5, uy + 0.5, (r 3 - 0.5) * 0.5)
  | "Saturn" =>
      if r 0 < 0.6 then getRandomPointInSphere 1.8 (fun j => r (j + 1))
      else
        let angle := r 1 * Real.pi * 2
        let dist := 2.8 + r 2 * 1.5
        (Real.cos angle * dist, (r 3 - 0.5) * 0.1, Real.sin angle * dist)
  | "Solar System" =>
      if r 0 < 0.15 then getRandomPointInSphere 0.8 (fun j => r (j + 1))
      else if r 0 < 0.55 then
        let selectedOrbit := orbitRadii.getD (⌊r 1 * 8⌋).toNat 0
        let rad := selectedOrbit + (r 2 - 0.5) * 0.1
        let theta := r 3 * Real.pi * 2
        (rad * Real.cos theta, (r 4 - 0.5) * 0.05, rad * Real.sin theta)
      else
        let pIdx := (⌊r 1 * 8⌋).toNat
        let planet := solarPlanets.getD pIdx (0, 0, 0)
        let centerX := planet.1 * Real.cos planet.2.2
        let centerZ := planet.1 * Real.sin planet.2.2
        let p := getRandomPointInSphere planet.2.1 (fun j => r (j + 2))
        if pIdx = 5 ∧ r 5 > 0.5 then
          let ringR := planet.2.1 * (1.4 + r 6 * 0.8)
          let ringTheta := r 7 * Real.pi * 2
          (centerX + ringR * Real.cos ringTheta,
           (r 8 - 0.5) * 0.05 + Real.sin ringTheta * 0.1,
           centerZ + ringR * Real.sin ringTheta)
        else (centerX + p.1, p.2.1, centerZ + p.2.2)
  | "Buddha" =>
      if r 0 < 0.2 then
        let p := getRandomPointInSphere 0.8 (fun j => r (j + 1))
        (p.1, p.2.1 + 2.5, p.2.2)
      else if r 0 < 0.6 then
        let hgt := r 1 * 3
        let rad := 1.0 + (3 - hgt) * 0.5
        let theta := r 2 * Real.pi * 2
        (rad * Real.cos theta * Real.sqrt (r 3), hgt - 1.5,
         rad * Real.sin theta * Real.sqrt (r 4))
      else
        let theta := r 1 * Real.pi * 2
        let rad := 2.5 * Real.sqrt (r 2)
        (rad * Real.cos theta, -1.5 + r 3 * 0.5, rad * Real.sin theta)
  | "Fireworks" =>
      let theta := r 0 * Real.pi * 2
      let phi := Real.arccos (2 * r 1 - 1)
      let rr := r 2 * 6
      (rr * Real.sin phi * Real.cos theta, rr * Real.sin phi * Real.sin theta,
       rr * Real.cos phi)
  | "Custom" => getRandomPointInSphere 3 r
  | _ => getRandomPointInSphere 3 r

/-- All three coordinates of a point are within `30` of zero — the
real-arithmetic counterpart of "every generated entry is a finite number". -/
def Bounded30 (p : ℝ × ℝ × ℝ) : Prop :=
  |p.1| ≤ 30 ∧ |p.2.1| ≤ 30 ∧ |p.2.2| ≤ 30

/-- The point list produced by one `generateParticles` call. -/
noncomputable def generateParticlesPoints (shape : String) (count : ℕ)
    (rand : ℕ → ℕ → ℝ) : List (ℝ × ℝ × ℝ) :=
  (List.range count).map fun i => generatePoint shape i count (rand i)

/-- `generateParticles`: the flat `Float32Array(count * 3)` buffer. -/
noncomputable def generateParticles (shape : String) (count : ℕ)
    (rand : ℕ → ℕ → ℝ) : List ℝ :=
  flat3 (generateParticlesPoints shape count rand)

/-! ## The per-frame updater (the particle scene `useFrame` callback)

Models the per-frame pipeline of the music/gesture particle scene: the
mode-selected rotation, expansion factor and lerp speed, the transition decay,
and for each particle the warp scatter, expansion, vortex spin, fluid noise,
audio jitter, and exponential-smoothing integration of its stored physics
position.  Rendering-side state (the trailing-history buffer, vertex colors,
material size/opacity) is derived from the updated positions and feeds nothing
back into them, so it is not part of the state here.  `Math.random()` draws
are the per-particle triples `warpR i` / `jitR i`.  A JS read past the end of
the target buffer yields `undefined` (hence `NaN` downstream); the model reads
`getD _ 0` instead, which only matters on mismatched buffers that the target
construction (`computeTargets`) provably never produces. -/

/-- Gesture snapshot (`HandData` in `src/types.ts`). -/
structure HandData where
  gestureValue : ℝ
  posX : ℝ
  posY : ℝ

/-- Audio band snapshot (`audioManager.getAudioData()`). -/
structure AudioData where
  bass : ℝ
  mid : ℝ
  high : ℝ

/-- The per-frame mutable state owned by the updater: per-particle physics
positions, scalar transition intensity, and the points-object rotation. -/
structure FrameState where
  physics : List (ℝ × ℝ × ℝ)
  intensity : ℚ
  rotX : ℝ
  rotY : ℝ

/-- Mode-selected expansion factor (step 3 of the pipeline). -/
noncomputable def expansionFactor (music : Bool) (audio : AudioData) (hand : HandData)
    (time : ℝ) : ℝ :=
  if music then 1.0 + audio.bass * 2.5 + Real.sin (time * 3.0) * (audio.bass * 0.5)
  else 1 + hand.gestureValue ^ (1.5:ℝ) * 3.0 + audio.bass * 0.5
    + Real.sin (time * (2.0 + hand.gestureValue * 5.0)) * (0.05 + audio.bass * 0.1)

/-- Mode-selected integration speed (`lerpBase`). -/
noncomputable def lerpBaseOf (music : Bool) (audio : AudioData) (hand : HandData) : ℝ :=
  if music then 0.1 + audio.bass * 0.2 else 0.08 + hand.gestureValue * 0.05

/-- Mode-selected vortex strength. -/
noncomputable def vortexStrength (music : Bool) (audio : AudioData) (hand : HandData) : ℝ :=
  if music then audio.high * 0.8 else hand.gestureValue * 0.5

/-- Mode-selected fluid-noise amplitude. -/
noncomputable def noiseAmp (music : Bool) (audio : AudioData) (hand : HandData) : ℝ :=
  if music then 0.1 + audio.high * 0.5 else 0.15 + hand.gestureValue * 0.2

/-- Mode-selected rotation update of the points object. -/
noncomputable def rotationStep (music : Bool) (audio : AudioData) (hand : HandData)
    (time rotX rotY : ℝ) : ℝ × ℝ :=
  if music then
    (Real.sin (time * 0.5) * 0.1 + audio.bass * 0.1, rotY + (0.002 + audio.high * 0.02))
  else
    (rotX + ((hand.posY - 0.5) * 1.5 - rotX) * 0.05,
     rotY + ((hand.posX - 0.5) * 3.0 - rotY) * 0.05)

/-- The distance-dependent spin angle:
`time * (0.2 + high * 0.5) + (1.0 / (dist + 0.1)) * vortexStrength`. -/
noncomputable def vortexSpin (time high vs tx tz : ℝ) : ℝ :=
  time * (0.2 + high * 0.5) + 1.0 / (Real.sqrt (tx ^ 2 + tz ^ 2) + 0.1) * vs

/-- The `spinSpeed` of the older `ParticleScene.tsx` updater:
`0.2 + (1.0 / (dist + 0.1)) * 0.5`. -/
noncomputable def spinSpeedPS (tx tz : ℝ) : ℝ :=
  0.2 + 1.0 / (Real.sqrt (tx ^ 2 + tz ^ 2) + 0.1) * 0.5

/-- The fully transformed per-particle target (pipeline steps 1–6): warp
scatter while transitioning, expansion, vortex rotation, fluid noise (read
from the particle's current position and fixed phase `offset`), and the
audio-jitter shockwave on strong bass. -/
noncomputable def particleTarget (music : Bool) (audio : AudioData) (hand : HandData)
    (time : ℝ) (intensity : ℚ) (offset : ℝ) (warpR jitR : ℝ × ℝ × ℝ)
    (tgt cur : ℝ × ℝ × ℝ) : ℝ × ℝ × ℝ :=
  let w := if 0 < intensity then
      (tgt.1 + (warpR.1 - 0.5) * ((intensity : ℝ) * 12),
       tgt.2.1 + (warpR.2.1 - 0.5) * ((intensity : ℝ) * 12),
       tgt.2.2 + (warpR.2.2 - 0.5) * ((intensity : ℝ) * 12))
    else tgt
  let E := expansionFactor music audio hand time
  let e1 := w.1 * E
  let e2 := w.2.1 * E
  let e3 := w.2.2 * E
  let spin := vortexSpin time audio.high (vortexStrength music audio hand) e1 e3
  let v1 := e1 * Real.cos spin - e3 * Real.sin spin
  let v3 := e1 * Real.sin spin + e3 * Real.cos spin
  let na := noiseAmp music audio hand
  let f1 := v1 + Real.sin (time * 0.8 + cur.2.1 * 0.5 + offset) * na
  let f2 := e2 + Real.cos (time * 0.7 + cur.2.2 * 0.5 + offset) * na
  let f3 := v3 + Real.sin (time * 0.9 + cur.1 * 0.5 + offset) * na
  if audio.bass > 0.3 then
    (f1 + (jitR.1 - 0.5) * (audio.bass * 0.05),
     f2 + (jitR.2.1 - 0.5) * (audio.bass * 0.05),
     f3 + (jitR.2.2 - 0.5) * (audio.bass * 0.05))
  else (f1, f2, f3)

/-- One whole frame: mode-selected rotation, intensity decay, then — only when
a target buffer is present (`if (targetPositions)`) — per-particle target
transform and integration.  There is no length check on the buffer. -/
noncomputable def frameUpdate (music : Bool) (audio : AudioData) (hand : HandData)
    (time : ℝ) (offsets : ℕ → ℝ) (warpR jitR : ℕ → ℝ × ℝ × ℝ)
    (tgt : Option (List ℝ)) (s : FrameState) : FrameState :=
  let rot := rotationStep music audio hand time s.rotX s.rotY
  let i2 := decayStep s.intensity
  let lb := lerpBaseOf music audio hand
  let physics2 := match tgt with
    | none => s.physics
    | some ts => s.physics.enum.map fun ic =>
        let t := particleTarget music audio hand time i2 (offsets ic.1) (warpR ic.1)
          (jitR ic.1) (ts.getD (3 * ic.1) 0, ts.getD (3 * ic.1 + 1) 0,
           ts.getD (3 * ic.1 + 2) 0) ic.2
        (integrateStep lb t.1 ic.2.1, integrateStep lb t.2.1 ic.2.2.1,
         integrateStep lb t.2.2 ic.2.2.2)
  ⟨physics2, i2, rot.1, rot.2⟩

/-- The target-buffer construction (`targetPositions` memo): for the custom
shape, a custom buffer of the wrong length is resampled to exactly `3 × n`
entries by picking random source triples; otherwise the procedural generator
runs. -/
noncomputable def computeTargets (currentShape : String) (customPoints : Option (List ℝ))
    (n : ℕ) (genRand : ℕ → ℕ → ℝ) (resR : ℕ → ℝ) : List ℝ :=
  if currentShape = "Custom" then
    match customPoints with
    | some cp =>
        if cp.length ≠ 3 * n then
          flat3 ((List.range n).map fun i =>
            (cp.getD ((⌊resR i * ((cp.length : ℝ) / 3)⌋).toNat * 3) 0,
             cp.getD ((⌊resR i * ((cp.length : ℝ) / 3)⌋).toNat * 3 + 1) 0,
             cp.getD ((⌊resR i * ((cp.length : ℝ) / 3)⌋).toNat * 3 + 2) 0))
        else cp
    | none => generateParticles currentShape n genRand
  else generateParticles currentShape n genRand

/-! # Theorems -/

lemma integrateIter_sub (l t x : ℝ) (k : ℕ) :
    integrateIter l t x k - t = (1 - l) ^ k * (x - t) := by
  induction k with
  | zero => simp [integrateIter]
  | succ k ih =>
      have : integrateIter l t x (k + 1) - t
          = (integrateIter l t x k - t) * (1 - l) := by
        simp only [integrateIter, integrateStep]; ring
      rw [this, ih, pow_succ]; ring

/-- C5 helper: the closed form of the decay iterates starting from `1`. -/
lemma decayStep_iter_one (k : ℕ) :
    decayStep^[k] 1 = if (23/25 : ℚ) ^ k < 1/100 then 0 else (23/25) ^ k := by
  induction k with
  | zero => norm_num
  | succ k ih =>
      rw [Function.iterate_succ_apply', ih]
      by_cases h : (23/25 : ℚ) ^ k < 1/100
      · rw [if_pos h, if_pos]
        · simp [decayStep]
        · calc (23/25 : ℚ) ^ (k+1) ≤ (23/25) ^ k := by
                apply pow_le_pow_of_le_one <;> norm_num
            _ < 1/100 := h
      · rw [if_neg h]
        have hpos : (0 : ℚ) < (23/25) ^ k := by positivity
        rw [decayStep, if_pos hpos, pow_succ]
        by_cases h' : (23/25 : ℚ) ^ k * (23/25) < 1/100
        · rw [if_pos (by linarith [h', mul_comm ((23/25:ℚ)^k) (23/25)]),
            if_pos h']
        · rw [if_neg (fun hc => h' (by linarith [hc, mul_comm ((23/25:ℚ)^k) (23/25)])),
            if_neg h', mul_comm]

/-- C5: after a shape change sets the intensity to `1.0`, its value after `k`
frames is `0.92^k`, clamped to exactly `0` once that power drops below `0.01`;
and the frame update advances the intensity by exactly the pure decay step, so
the trajectory is independent of mode, gesture, audio, randomness, time,
target buffer, and particle state. -/
theorem transition_decay_closed_form (prevShape currentShape : String)
    (t0 : ℚ) (h : prevShape ≠ currentShape) (k : ℕ) :
    (decayStep^[k] (onShapeChange prevShape currentShape t0)
      = if (23/25 : ℚ) ^ k < 1/100 then 0 else (23/25) ^ k) ∧
    (∀ (music : Bool) (audio : AudioData) (hand : HandData) (time : ℝ)
        (offsets : ℕ → ℝ) (warpR jitR : ℕ → ℝ × ℝ × ℝ) (tgt : Option (List ℝ))
        (s : FrameState),
      (frameUpdate music audio hand time offsets warpR jitR tgt s).intensity
        = decayStep s.intensity) := by
  constructor
  · rw [onShapeChange, if_pos h]; exact decayStep_iter_one k
  · intro music audio hand time offsets warpR jitR tgt s
    rfl

/-- Witness for `transition_decay_closed_form` at a concrete shape change and
`k = 2` frames. -/
theorem transition_decay_closed_form_witness :
    ("Heart" ≠ "Sphere") ∧
      ((decayStep^[2] (onShapeChange "Heart" "Sphere" (37/100))
        = if (23/25 : ℚ) ^ 2 < 1/100 then 0 else (23/25) ^ 2) ∧
       (∀ (music : Bool) (audio : AudioData) (hand : HandData) (time : ℝ)
          (offsets : ℕ → ℝ) (warpR jitR : ℕ → ℝ × ℝ × ℝ) (tgt : Option (List ℝ))
          (s : FrameState),
        (frameUpdate music audio hand time offsets warpR jitR tgt s).intensity
          = decayStep s.intensity)) :=
  ⟨by decide, transition_decay_closed_form "Heart" "Sphere" (37/100) (by decide) 2⟩

/-- C10: every reachable transition intensity lies in `[0, 1]`. -/
theorem intensity_invariant (t : ℚ) (h : IntensityReachable t) :
    0 ≤ t ∧ t ≤ 1 := by
  induction h with
  | init => norm_num
  | change t _ _ => norm_num
  | frame t _ ih =>
      obtain ⟨h0, h1⟩ := ih
      unfold decayStep
      split_ifs with hpos hsmall
      · norm_num
      · constructor <;> nlinarith
      · exact ⟨h0, h1⟩

/-- Witness for `intensity_invariant`: the state reached by a shape change
followed by one decay frame. -/
theorem intensity_invariant_witness :
    0 ≤ decayStep 1 ∧ decayStep 1 ≤ 1 :=
  intensity_invariant (decayStep 1)
    (IntensityReachable.frame 1 (IntensityReachable.change 0 IntensityReachable.init))

/-- C6: for `lerpBase ∈ (0,1)` and a constant target, each integration step
contracts the distance to the target by the factor `1 - lerpBase`, the iterate
never crosses the target (no overshoot or oscillation), and it comes within any
`ε > 0` of the target after finitely many frames. -/
theorem integration_converges (l t x : ℝ) (hl0 : 0 < l) (hl1 : l < 1) :
    (∀ k, |integrateIter l t x (k + 1) - t| = (1 - l) * |integrateIter l t x k - t|) ∧
    (∀ k, (x ≤ t → integrateIter l t x k ≤ t) ∧ (t ≤ x → t ≤ integrateIter l t x k)) ∧
    (∀ k, |integrateIter l t x (k + 1) - t| ≤ |integrateIter l t x k - t|) ∧
    (∀ ε : ℝ, 0 < ε → ∃ k, |integrateIter l t x k - t| < ε) := by
  have hml : 0 < 1 - l := by linarith
  have hstep : ∀ k, integrateIter l t x (k + 1) - t
      = (1 - l) * (integrateIter l t x k - t) := by
    intro k
    simp only [integrateIter, integrateStep]; ring
  refine ⟨?_, ?_, ?_, ?_⟩
  · intro k
    rw [hstep k, abs_mul, abs_of_pos hml]
  · intro k
    have hsub := integrateIter_sub l t x k
    have hp : (0:ℝ) < (1 - l) ^ k := pow_pos hml k
    constructor
    · intro hx
      nlinarith
    · intro hx
      nlinarith
  · intro k
    rw [hstep k, abs_mul, abs_of_pos hml]
    nlinarith [abs_nonneg (integrateIter l t x k - t)]
  · intro ε hε
    have hr1 : (1 - l) < 1 := by linarith
    obtain ⟨k, hk⟩ := exists_pow_lt_of_lt_one (show 0 < ε / (|x - t| + 1) by positivity) hr1
    refine ⟨k, ?_⟩
    rw [integrateIter_sub, abs_mul, abs_of_pos (pow_pos hml k)]
    have h1 : |x - t| < |x - t| + 1 := by linarith
    have h2 : (1 - l) ^ k * |x - t| < (ε / (|x - t| + 1)) * (|x - t| + 1) := by
      apply mul_lt_mul' (le_of_lt hk) h1 (abs_nonneg _)
      positivity
    have h3 : (ε / (|x - t| + 1)) * (|x - t| + 1) = ε := by
      field_simp
    linarith

/-! ### Heart rejection sampling -/

lemma generatePoint_heart (i count : ℕ) (r : ℕ → ℝ) :
    generatePoint "Heart" i count r = getVolumetricHeartPoint 2.0 r := rfl

/-- For `s ≥ 81/25` the cube `(s-1)³` dominates `27/8·s`, so points that far
from the origin are always rejected. -/
lemma heart_cube_gap (s : ℝ) (h : 81/25 ≤ s) : (27/8) * s < (s - 1) ^ 3 := by
  nlinarith [sq_nonneg (s - 81/25), sub_nonneg.mpr h,
    mul_nonneg (mul_nonneg (sub_nonneg.mpr h) (sub_nonneg.mpr h)) (sub_nonneg.mpr h)]

set_option maxHeartbeats 1000000 in
/-- Any point of the bounding cube accepted by the heart inequality lies
strictly inside the ball of radius `9/5 = 1.8`. -/
lemma heart_norm_bound (x y z : ℝ) (hz : |z| ≤ 3/2)
    (hF : heartF x y z < 0) : x ^ 2 + y ^ 2 + z ^ 2 < (9/5) ^ 2 := by
  rw [heartF] at hF
  generalize hS : x ^ 2 + (9/4) * y ^ 2 + z ^ 2 = s at hF
  have hqs : x ^ 2 + y ^ 2 + z ^ 2 ≤ s := by nlinarith [sq_nonneg y, hS]
  by_contra hcon
  push_neg at hcon
  have hs_ge : 81/25 ≤ s := by nlinarith
  rcases le_or_lt z 0 with hz0 | hz0
  · have hz3 : z ^ 3 ≤ 0 := by nlinarith [sq_nonneg z]
    have hsub : x ^ 2 * z ^ 3 + 9/80 * y ^ 2 * z ^ 3 ≤ 0 := by
      nlinarith [mul_nonneg (sq_nonneg x) (neg_nonneg.mpr hz3),
        mul_nonneg (sq_nonneg y) (neg_nonneg.mpr hz3)]
    have hcube_neg : (s - 1) ^ 3 < 0 := by nlinarith [hF, hsub]
    have hlt : s < 1 := by
      by_contra hs1
      push_neg at hs1
      exact absurd hcube_neg (not_lt.mpr (pow_nonneg (by linarith) 3))
    linarith
  · have hz32 : z ≤ 3/2 := le_trans (le_abs_self z) hz
    have hz3 : z ^ 3 ≤ 27/8 := by
      have hpow := pow_le_pow_left₀ hz0.le hz32 3
      nlinarith [hpow]
    have hxy : x ^ 2 + 9/80 * y ^ 2 ≤ s := by nlinarith [sq_nonneg y, sq_nonneg z, hS]
    have h0s : (0:ℝ) ≤ s := by nlinarith [sq_nonneg x, sq_nonneg y, sq_nonneg z, hS]
    have hprod : x ^ 2 * z ^ 3 + 9/80 * y ^ 2 * z ^ 3 ≤ 27/8 * s := by
      have h1 : (x ^ 2 + 9/80 * y ^ 2) * z ^ 3 ≤ s * (27/8) :=
        mul_le_mul hxy hz3 (pow_nonneg hz0.le 3) h0s
      nlinarith [h1]
    have hkey : (s - 1) ^ 3 < 27/8 * s := by linarith [hF, hprod]
    linarith [heart_cube_gap s hs_ge, hkey]

lemma heartAttempt_coord_abs {u : ℝ} (h0 : 0 ≤ u) (h1 : u < 1) :
    |u * 3 - 1.5| ≤ 3/2 :=
  abs_le.mpr ⟨by norm_num; linarith, by norm_num; linarith⟩

section
open Classical

/-- C2: the heart rejection sampler only returns points whose raw
(pre-permutation, pre-scaling) coordinates satisfy the heart inequality
`heartF < 0`, and every emitted point of the HEART shape lies strictly within
radius `2.0 × 1.8 = 3.6` of the origin. -/
theorem heart_rejection_sound (count : ℕ) (rand : ℕ → ℕ → ℝ)
    (hr : ∀ i j, 0 ≤ rand i j ∧ rand i j < 1)
    (hacc : ∀ i, ∃ n, heartAccepts (rand i) n) :
    (∀ i, ∃ n, heartAccepts (rand i) n ∧
        getVolumetricHeartPoint 2.0 (rand i) =
          ((heartAttempt (rand i) n).1 * 2.0, (heartAttempt (rand i) n).2.2 * 2.0,
           (heartAttempt (rand i) n).2.1 * 2.0)) ∧
    (∀ p ∈ generateParticlesPoints "Heart" count rand,
        p.1 ^ 2 + p.2.1 ^ 2 + p.2.2 ^ 2 < (3.6 : ℝ) ^ 2) := by
  have hpoint : ∀ r : ℕ → ℝ, (∃ n, heartAccepts r n) →
      ∃ n, heartAccepts r n ∧
        getVolumetricHeartPoint 2.0 r =
          ((heartAttempt r n).1 * 2.0, (heartAttempt r n).2.2 * 2.0,
           (heartAttempt r n).2.1 * 2.0) := by
    intro r hex
    rw [getVolumetricHeartPoint]
    split
    · next h => exact ⟨Nat.find h, Nat.find_spec h, rfl⟩
    · next h => exact absurd hex h
  constructor
  · exact fun i => hpoint (rand i) (hacc i)
  · intro p hp
    obtain ⟨i, _, rfl⟩ := List.mem_map.mp hp
    obtain ⟨n, hspec, heq⟩ := hpoint (rand i) (hacc i)
    rw [generatePoint_heart, heq]
    rw [heartAccepts] at hspec
    obtain ⟨hz0, hz1⟩ := hr i (3 * n + 2)
    have hzb : |(heartAttempt (rand i) n).2.2| ≤ 3/2 := by
      rw [heartAttempt]
      exact heartAttempt_coord_abs hz0 hz1
    have hnorm := heart_norm_bound _ _ _ hzb hspec
    simp only [heartAttempt] at hnorm ⊢
    nlinarith [hnorm]

end

/-- Witness for `heart_rejection_sound`: the constant stream `1/2`, whose
first attempt is the origin, which the heart inequality accepts. -/
theorem heart_rejection_sound_witness :
    ((∀ i j : ℕ, (0:ℝ) ≤ (fun _ _ : ℕ => (1/2:ℝ)) i j ∧ (fun _ _ : ℕ => (1/2:ℝ)) i j < 1) ∧
     (∀ i : ℕ, ∃ n, heartAccepts ((fun _ _ : ℕ => (1/2:ℝ)) i) n)) ∧
    ((∀ i : ℕ, ∃ n, heartAccepts ((fun _ _ : ℕ => (1/2:ℝ)) i) n ∧
        getVolumetricHeartPoint 2.0 ((fun _ _ : ℕ => (1/2:ℝ)) i) =
          ((heartAttempt ((fun _ _ : ℕ => (1/2:ℝ)) i) n).1 * 2.0,
           (heartAttempt ((fun _ _ : ℕ => (1/2:ℝ)) i) n).2.2 * 2.0,
           (heartAttempt ((fun _ _ : ℕ => (1/2:ℝ)) i) n).2.1 * 2.0)) ∧
     (∀ p ∈ generateParticlesPoints "Heart" 1 (fun _ _ : ℕ => (1/2:ℝ)),
        p.1 ^ 2 + p.2.1 ^ 2 + p.2.2 ^ 2 < (3.6 : ℝ) ^ 2)) := by
  have hr : ∀ i j : ℕ, (0:ℝ) ≤ (fun _ _ : ℕ => (1/2:ℝ)) i j ∧
      (fun _ _ : ℕ => (1/2:ℝ)) i j < 1 := fun i j => by norm_num
  have hacc : ∀ i : ℕ, ∃ n, heartAccepts ((fun _ _ : ℕ => (1/2:ℝ)) i) n := by
    intro i
    refine ⟨0, ?_⟩
    rw [heartAccepts, heartAttempt, heartF]
    norm_num
  exact ⟨⟨hr, hacc⟩, heart_rejection_sound 1 _ hr hacc⟩

/-! ### Interval bounds for the shape samplers

Every coordinate produced by `generatePoint` is bounded in absolute value, the
real-arithmetic counterpart of "all buffer entries are finite". -/

lemma bweak {a A B : ℝ} (h : |a| ≤ A) (hAB : A ≤ B) : |a| ≤ B := le_trans h hAB

lemma bmul {a b A B : ℝ} (ha : |a| ≤ A) (hb : |b| ≤ B) : |a * b| ≤ A * B := by
  rw [abs_mul]
  exact mul_le_mul ha hb (abs_nonneg b) (le_trans (abs_nonneg a) ha)

lemma badd {a b A B : ℝ} (ha : |a| ≤ A) (hb : |b| ≤ B) : |a + b| ≤ A + B :=
  le_trans (abs_add a b) (add_le_add ha hb)

lemma bsub {a b A B : ℝ} (ha : |a| ≤ A) (hb : |b| ≤ B) : |a - b| ≤ A + B := by
  rw [sub_eq_add_neg]
  refine le_trans (abs_add a (-b)) ?_
  rw [abs_neg]
  exact add_le_add ha hb

lemma bconst {c : ℝ} (h : 0 ≤ c) : |c| ≤ c := by rw [abs_of_nonneg h]

lemma bneg {c : ℝ} (h : 0 ≤ c) : |(-c)| ≤ c := by rw [abs_neg, abs_of_nonneg h]

lemma babs {a A : ℝ} (h : |a| ≤ A) : |(|a|)| ≤ A := by rwa [abs_abs]

lemma bsin (x : ℝ) : |Real.sin x| ≤ 1 := Real.abs_sin_le_one x

lemma bcos (x : ℝ) : |Real.cos x| ≤ 1 := Real.abs_cos_le_one x

lemma bsqrt01 {x : ℝ} (h1 : x ≤ 1) : |Real.sqrt x| ≤ 1 := by
  rw [abs_of_nonneg (Real.sqrt_nonneg x)]
  calc Real.sqrt x ≤ Real.sqrt 1 := Real.sqrt_le_sqrt h1
    _ = 1 := Real.sqrt_one

lemma bexp_cos (t : ℝ) : |Real.exp (Real.cos t)| ≤ 3 := by
  rw [abs_of_pos (Real.exp_pos _)]
  calc Real.exp (Real.cos t) ≤ Real.exp 1 := Real.exp_le_exp.mpr (Real.cos_le_one t)
    _ ≤ 3 := le_of_lt (lt_trans Real.exp_one_lt_d9 (by norm_num))

lemma bpow5 {a : ℝ} (h : |a| ≤ 1) : |a ^ 5| ≤ 1 := by
  rw [abs_pow]
  exact pow_le_one₀ (abs_nonneg a) h

lemma orbitRadii_getD_bounds (n : ℕ) :
    0 ≤ orbitRadii.getD n 0 ∧ orbitRadii.getD n 0 ≤ 12.5 := by
  rcases n with _|_|_|_|_|_|_|_|n <;> simp [orbitRadii] <;> norm_num

lemma solarPlanets_getD_bounds (n : ℕ) :
    0 ≤ (solarPlanets.getD n (0,0,0)).1 ∧ (solarPlanets.getD n (0,0,0)).1 ≤ 12.5 ∧
    0 ≤ (solarPlanets.getD n (0,0,0)).2.1 ∧ (solarPlanets.getD n (0,0,0)).2.1 ≤ 0.5 := by
  rcases n with _|_|_|_|_|_|_|_|n <;> simp [solarPlanets] <;> norm_num

lemma sphere_bound (radius : ℝ) (hrad : 0 ≤ radius) (r : ℕ → ℝ)
    (hr : ∀ j, 0 ≤ r j ∧ r j < 1) :
    |(getRandomPointInSphere radius r).1| ≤ radius ∧
    |(getRandomPointInSphere radius r).2.1| ≤ radius ∧
    |(getRandomPointInSphere radius r).2.2| ≤ radius := by
  obtain ⟨h20, h21⟩ := hr 2
  have hrr : |(r 2) ^ ((1:ℝ)/3) * radius| ≤ 1 * radius := by
    apply bmul _ (bconst hrad)
    rw [abs_of_nonneg (Real.rpow_nonneg h20 _)]
    exact Real.rpow_le_one h20 h21.le (by norm_num)
  simp only [getRandomPointInSphere]
  refine ⟨?_, ?_, ?_⟩
  · have h := bmul (bmul hrr (bsin (Real.arccos (2 * r 1 - 1)))) (bcos (2 * Real.pi * r 0))
    calc |_| ≤ 1 * radius * 1 * 1 := h
      _ = radius := by ring
  · have h := bmul (bmul hrr (bsin (Real.arccos (2 * r 1 - 1)))) (bsin (2 * Real.pi * r 0))
    calc |_| ≤ 1 * radius * 1 * 1 := h
      _ = radius := by ring
  · have h := bmul hrr (bcos (Real.arccos (2 * r 1 - 1)))
    calc |_| ≤ 1 * radius * 1 := h
      _ = radius := by ring

lemma heart_bound (scale : ℝ) (hs : 0 ≤ scale) (r : ℕ → ℝ)
    (hr : ∀ j, 0 ≤ r j ∧ r j < 1) :
    |(getVolumetricHeartPoint scale r).1| ≤ 3/2 * scale ∧
    |(getVolumetricHeartPoint scale r).2.1| ≤ 3/2 * scale ∧
    |(getVolumetricHeartPoint scale r).2.2| ≤ 3/2 * scale := by
  rw [getVolumetricHeartPoint]
  split
  · next h =>
      simp only [heartAttempt]
      exact ⟨bmul (heartAttempt_coord_abs (hr _).1 (hr _).2) (bconst hs),
        bmul (heartAttempt_coord_abs (hr _).1 (hr _).2) (bconst hs),
        bmul (heartAttempt_coord_abs (hr _).1 (hr _).2) (bconst hs)⟩
  · next =>
      refine ⟨?_, ?_, ?_⟩ <;> simp <;> positivity

set_option maxHeartbeats 4000000 in
/-- Every coordinate sampled by any shape branch (declared or the `default`
fallback) is bounded by `30` in absolute value. -/
lemma generatePoint_bound (shape : String) (i count : ℕ) (r : ℕ → ℝ)
    (hi : i < count) (hr : ∀ j, 0 ≤ r j ∧ r j < 1) :
    Bounded30 (generatePoint shape i count r) := by
  have hdr : ∀ j, |r j| ≤ 1 := fun j =>
    abs_le.mpr ⟨by linarith [(hr j).1], by linarith [(hr j).2]⟩
  have hd5 : ∀ j, |r j - 0.5| ≤ 0.5 := fun j =>
    abs_le.mpr ⟨by norm_num; linarith [(hr j).1], by norm_num; linarith [(hr j).2]⟩
  unfold generatePoint
  split
  · -- Heart
    have h := heart_bound 2.0 (by norm_num) r hr
    exact ⟨bweak h.1 (by norm_num), bweak h.2.1 (by norm_num), bweak h.2.2 (by norm_num)⟩
  · -- Double Heart
    have h := heart_bound 1.8 (by norm_num) (fun j => r (j + 1)) (fun j => hr (j + 1))
    simp only [Bounded30]
    split_ifs
    · exact ⟨bweak (bsub h.1 (bconst (by norm_num))) (by norm_num),
        bweak h.2.1 (by norm_num), bweak h.2.2 (by norm_num)⟩
    · exact ⟨bweak (badd (bsub (bmul h.1 (bcos _)) (bmul h.2.2 (bsin _)))
          (bconst (by norm_num))) (by norm_num),
        bweak h.2.1 (by norm_num),
        bweak (badd (bmul h.1 (bsin _)) (bmul h.2.2 (bcos _))) (by norm_num)⟩
  · -- Galaxy
    simp only [Bounded30]
    refine ⟨bweak (badd (bmul (bcos _) (badd (bconst (by norm_num))
        (bmul (hdr 0) (bconst (by norm_num))))) (bmul (hd5 2) (bconst (by norm_num))))
        (by norm_num),
      bweak (bmul (bmul (hd5 1) (bsub (bconst (by norm_num)) (hdr 0)))
        (bconst (by norm_num))) (by norm_num),
      bweak (badd (bmul (bsin _) (badd (bconst (by norm_num))
        (bmul (hdr 0) (bconst (by norm_num))))) (bmul (hd5 3) (bconst (by norm_num))))
        (by norm_num)⟩
  · -- DNA
    have hcpos : (0:ℝ) < count := by exact_mod_cast Nat.zero_lt_of_lt hi
    have hic : |(i:ℝ)/count| ≤ 1 := by
      rw [abs_of_nonneg (div_nonneg (Nat.cast_nonneg i) (Nat.cast_nonneg count))]
      rw [div_le_one hcpos]
      exact_mod_cast hi.le
    have hmix : |r 0 * 2 - 1| ≤ 1 :=
      abs_le.mpr ⟨by linarith [(hr 0).1], by linarith [(hr 0).2]⟩
    simp only [Bounded30]
    split_ifs
    · exact ⟨bweak (bmul (bmul (bcos _) (bconst (by norm_num))) hmix) (by norm_num),
        bweak (bsub (bmul hic (bconst (by norm_num))) (bconst (by norm_num))) (by norm_num),
        bweak (bmul (bmul (bsin _) (bconst (by norm_num))) hmix) (by norm_num)⟩
    · exact ⟨bweak (bmul (bcos _) (bconst (by norm_num))) (by norm_num),
        bweak (bsub (bmul hic (bconst (by norm_num))) (bconst (by norm_num))) (by norm_num),
        bweak (bmul (bsin _) (bconst (by norm_num))) (by norm_num)⟩
    · exact ⟨bweak (bmul (bcos _) (bconst (by norm_num))) (by norm_num),
        bweak (bsub (bmul hic (bconst (by norm_num))) (bconst (by norm_num))) (by norm_num),
        bweak (bmul (bsin _) (bconst (by norm_num))) (by norm_num)⟩
  · -- Flower
    simp only [Bounded30]
    refine ⟨bweak (bmul (badd (bmul (bconst (by norm_num)) (bcos _))
        (bmul (hdr 1) (bconst (by norm_num)))) (bcos _)) (by norm_num),
      bweak (bmul (badd (bmul (bconst (by norm_num)) (bcos _))
        (bmul (hdr 1) (bconst (by norm_num)))) (bsin _)) (by norm_num),
      bweak (bmul (hd5 2) (bconst (by norm_num))) (by norm_num)⟩
  · -- Flower Sea
    simp only [Bounded30]
    refine ⟨bweak (bmul (hd5 0) (bconst (by norm_num))) (by norm_num),
      bweak (badd (badd (bsub (bmul (bmul (bsin _) (bcos _)) (bconst (by norm_num)))
        (bconst (by norm_num))) (bconst (by norm_num)))
        (bmul (hdr 2) (bconst (by norm_num)))) (by norm_num),
      bweak (bmul (hd5 1) (bconst (by norm_num))) (by norm_num)⟩
  · -- Ring
    have habs75 : |r 1 * 1.5 - 0.75| ≤ 0.75 :=
      abs_le.mpr ⟨by norm_num; linarith [(hr 1).1], by norm_num; linarith [(hr 1).2]⟩
    have hq : |(|r 1 * 1.5 - 0.75|) / 0.75| ≤ 1 := by
      rw [abs_div, abs_abs, abs_of_nonneg (by norm_num : (0:ℝ) ≤ (0.75:ℝ)),
        div_le_one (by norm_num)]
      exact habs75
    simp only [Bounded30]
    split_ifs
    · exact ⟨bweak (bmul (bmul (bsub (bconst (by norm_num)) hq)
          (bconst (by norm_num))) (bcos _)) (by norm_num),
        bweak (badd (bmul (hdr 1) (bconst (by norm_num))) (bconst (by norm_num)))
          (by norm_num),
        bweak (bmul (bmul (bsub (bconst (by norm_num)) hq)
          (bconst (by norm_num))) (bsin _)) (by norm_num)⟩
    · exact ⟨bweak (bmul (badd (bconst (by norm_num))
          (bmul (badd (bconst (by norm_num)) (bmul (hdr 1) (bconst (by norm_num))))
            (bcos _))) (bsin _)) (by norm_num),
        bweak (bmul (badd (bconst (by norm_num))
          (bmul (badd (bconst (by norm_num)) (bmul (hdr 1) (bconst (by norm_num))))
            (bcos _))) (bcos _)) (by norm_num),
        bweak (bmul (badd (bconst (by norm_num)) (bmul (hdr 1) (bconst (by norm_num))))
          (bsin _)) (by norm_num)⟩
  · -- Butterfly
    simp only [Bounded30]
    have hrr : |Real.exp (Real.cos (r 0 * Real.pi * 4))
        - 2 * Real.cos (4 * (r 0 * Real.pi * 4))
        + Real.sin (r 0 * Real.pi * 4 / 12) ^ 5| ≤ 3 + 2 * 1 + 1 := by
      exact badd (bsub (bexp_cos _) (bmul (bconst (by norm_num)) (bcos _))) (bpow5 (bsin _))
    have hx : |(Real.exp (Real.cos (r 0 * Real.pi * 4))
        - 2 * Real.cos (4 * (r 0 * Real.pi * 4))
        + Real.sin (r 0 * Real.pi * 4 / 12) ^ 5)
        * Real.sin (r 0 * Real.pi * 4) * 0.8| ≤ (3 + 2 * 1 + 1) * 1 * 0.8 := by
      exact bmul (bmul hrr (bsin _)) (bconst (by norm_num))
    refine ⟨bweak hx (by norm_num),
      bweak (bmul (bmul hrr (bcos _)) (bconst (by norm_num))) (by norm_num),
      bweak (badd (bmul (bmul (babs hx) (bconst (by norm_num))) (bsin _))
        (bmul (hd5 1) (bconst (by norm_num)))) (by norm_num)⟩
  · -- I Love U
    simp only [Bounded30]
    split_ifs
    · exact ⟨bweak (badd (bneg (by norm_num)) (bmul (hdr 1) (bconst (by norm_num))))
          (by norm_num),
        bweak (bsub (bmul (hdr 2) (bconst (by norm_num))) (bconst (by norm_num)))
          (by norm_num),
        bweak (bmul (hd5 3) (bconst (by norm_num))) (by norm_num)⟩
    · have h := heart_bound 1.2 (by norm_num) (fun j => r (j + 1)) (fun j => hr (j + 1))
      exact ⟨bweak h.1 (by norm_num), bweak h.2.1 (by norm_num), bweak h.2.2 (by norm_num)⟩
    · exact ⟨bweak (badd (bmul (bcos _) (bconst (by norm_num))) (bconst (by norm_num)))
          (by norm_num),
        bweak (badd (badd (bmul (bmul (bsin _) (bconst (by norm_num)))
          (bconst (by norm_num))) (bmul (hdr 3) (bconst (by norm_num))))
          (bconst (by norm_num))) (by norm_num),
        bweak (bmul (hd5 4) (bconst (by norm_num))) (by norm_num)⟩
    · exact ⟨bweak (badd (bmul (bcos _) (bconst (by norm_num))) (bconst (by norm_num)))
          (by norm_num),
        bweak (badd (bmul (bmul (bsin _) (bconst (by norm_num))) (bconst (by norm_num)))
          (bconst (by norm_num))) (by norm_num),
        bweak (bmul (hd5 3) (bconst (by norm_num))) (by norm_num)⟩
  · -- Saturn
    simp only [Bounded30]
    split_ifs
    · have h := sphere_bound 1.8 (by norm_num) (fun j => r (j + 1)) (fun j => hr (j + 1))
      exact ⟨bweak h.1 (by norm_num), bweak h.2.1 (by norm_num), bweak h.2.2 (by norm_num)⟩
    · exact ⟨bweak (bmul (bcos _) (badd (bconst (by norm_num))
          (bmul (hdr 2) (bconst (by norm_num))))) (by norm_num),
        bweak (bmul (hd5 3) (bconst (by norm_num))) (by norm_num),
        bweak (bmul (bsin _) (badd (bconst (by norm_num))
          (bmul (hdr 2) (bconst (by norm_num))))) (by norm_num)⟩
  · -- Solar System
    have horb := orbitRadii_getD_bounds (⌊r 1 * 8⌋).toNat
    have horbabs : |orbitRadii.getD (⌊r 1 * 8⌋).toNat 0| ≤ 12.5 := by
      rw [abs_of_nonneg horb.1]; exact horb.2
    have hp := solarPlanets_getD_bounds (⌊r 1 * 8⌋).toNat
    have hpr : |(solarPlanets.getD (⌊r 1 * 8⌋).toNat (0,0,0)).1| ≤ 12.5 := by
      rw [abs_of_nonneg hp.1]; exact hp.2.1
    have hps : |(solarPlanets.getD (⌊r 1 * 8⌋).toNat (0,0,0)).2.1| ≤ 0.5 := by
      rw [abs_of_nonneg hp.2.2.1]; exact hp.2.2.2
    have hsp := sphere_bound _ hp.2.2.1 (fun j => r (j + 2)) (fun j => hr (j + 2))
    simp only [Bounded30]
    split_ifs
    · have h := sphere_bound 0.8 (by norm_num) (fun j => r (j + 1)) (fun j => hr (j + 1))
      exact ⟨bweak h.1 (by norm_num), bweak h.2.1 (by norm_num), bweak h.2.2 (by norm_num)⟩
    · exact ⟨bweak (bmul (badd horbabs (bmul (hd5 2) (bconst (by norm_num)))) (bcos _))
          (by norm_num),
        bweak (bmul (hd5 4) (bconst (by norm_num))) (by norm_num),
        bweak (bmul (badd horbabs (bmul (hd5 2) (bconst (by norm_num)))) (bsin _))
          (by norm_num)⟩
    · exact ⟨bweak (badd (bmul hpr (bcos _))
          (bmul (bmul hps (badd (bconst (by norm_num))
            (bmul (hdr 6) (bconst (by norm_num))))) (bcos _))) (by norm_num),
        bweak (badd (bmul (hd5 8) (bconst (by norm_num)))
          (bmul (bsin _) (bconst (by norm_num)))) (by norm_num),
        bweak (badd (bmul hpr (bsin _))
          (bmul (bmul hps (badd (bconst (by norm_num))
            (bmul (hdr 6) (bconst (by norm_num))))) (bsin _))) (by norm_num)⟩
    · exact ⟨bweak (badd (bmul hpr (bcos _)) (bweak hsp.1 hp.2.2.2)) (by norm_num),
        bweak (bweak hsp.2.1 hp.2.2.2) (by norm_num),
        bweak (badd (bmul hpr (bsin _)) (bweak hsp.2.2 hp.2.2.2)) (by norm_num)⟩
  · -- Buddha
    simp only [Bounded30]
    split_ifs
    · have h := sphere_bound 0.8 (by norm_num) (fun j => r (j + 1)) (fun j => hr (j + 1))
      exact ⟨bweak h.1 (by norm_num),
        bweak (badd h.2.1 (bconst (by norm_num))) (by norm_num),
        bweak h.2.2 (by norm_num)⟩
    · exact ⟨bweak (bmul (bmul (badd (bconst (by norm_num))
          (bmul (bsub (bconst (by norm_num)) (bmul (hdr 1) (bconst (by norm_num))))
            (bconst (by norm_num)))) (bcos _)) (bsqrt01 (hr 3).2.le)) (by norm_num),
        bweak (bsub (bmul (hdr 1) (bconst (by norm_num))) (bconst (by norm_num)))
          (by norm_num),
        bweak (bmul (bmul (badd (bconst (by norm_num))
          (bmul (bsub (bconst (by norm_num)) (bmul (hdr 1) (bconst (by norm_num))))
            (bconst (by norm_num)))) (bsin _)) (bsqrt01 (hr 4).2.le)) (by norm_num)⟩
    · exact ⟨bweak (bmul (bmul (bconst (by norm_num)) (bsqrt01 (hr 2).2.le)) (bcos _))
          (by norm_num),
        bweak (badd (bneg (by norm_num)) (bmul (hdr 3) (bconst (by norm_num))))
          (by norm_num),
        bweak (bmul (bmul (bconst (by norm_num)) (bsqrt01 (hr 2).2.le)) (bsin _))
          (by norm_num)⟩
  · -- Fireworks
    simp only [Bounded30]
    refine ⟨bweak (bmul (bmul (bmul (hdr 2) (bconst (by norm_num))) (bsin _)) (bcos _))
        (by norm_num),
      bweak (bmul (bmul (bmul (hdr 2) (bconst (by norm_num))) (bsin _)) (bsin _))
        (by norm_num),
      bweak (bmul (bmul (hdr 2) (bconst (by norm_num))) (bcos _)) (by norm_num)⟩
  · -- Custom
    have h := sphere_bound 3 (by norm_num) r hr
    exact ⟨bweak h.1 (by norm_num), bweak h.2.1 (by norm_num), bweak h.2.2 (by norm_num)⟩
  · -- default (unrecognized identifiers fall back to the sphere)
    have h := sphere_bound 3 (by norm_num) r hr
    exact ⟨bweak h.1 (by norm_num), bweak h.2.1 (by norm_num), bweak h.2.2 (by norm_num)⟩

/-! ### Stroke resampler lemmas -/

lemma flat3_length (ps : List (ℝ × ℝ × ℝ)) : (flat3 ps).length = 3 * ps.length := by
  induction ps with
  | nil => simp [flat3]
  | cons p t ih =>
      simp [flat3, List.flatMap_cons] at ih ⊢
      omega

lemma fillLoop_length (fr : ℕ → ℝ) (fuel : ℕ) (ps : List (ℝ × ℝ × ℝ)) :
    (fillLoop fr fuel ps).length = ps.length + fuel := by
  induction fuel generalizing ps with
  | zero => simp [fillLoop]
  | succ fuel ih => rw [fillLoop, ih]; simp; omega

lemma fillLoop_mem (fr : ℕ → ℝ) (hfr : ∀ j, 0 ≤ fr j ∧ fr j < 1) (fuel : ℕ)
    (ps : List (ℝ × ℝ × ℝ)) (hne : ps ≠ []) :
    ∀ q ∈ fillLoop fr fuel ps, q ∈ ps := by
  induction fuel generalizing ps with
  | zero => intro q hq; rw [fillLoop] at hq; exact hq
  | succ fuel ih =>
      intro q hq
      rw [fillLoop] at hq
      have hlen : 0 < ps.length := List.length_pos.mpr hne
      have hidx : (⌊fr ps.length * ps.length⌋).toNat < ps.length := by
        have hflt : ⌊fr ps.length * (ps.length : ℝ)⌋ < (ps.length : ℤ) := by
          rw [Int.floor_lt]
          push_cast
          calc fr ps.length * (ps.length : ℝ)
              < 1 * (ps.length : ℝ) := by
                apply mul_lt_mul_of_pos_right (hfr ps.length).2
                exact_mod_cast hlen
            _ = (ps.length : ℝ) := one_mul _
        omega
      have hmem : ps.getD (⌊fr ps.length * ps.length⌋).toNat (0, 0, 0) ∈ ps := by
        rw [List.getD_eq_getElem ps (0,0,0) hidx]
        exact List.getElem_mem hidx
      have := ih (ps ++ [ps.getD (⌊fr ps.length * ps.length⌋).toNat (0, 0, 0)])
        (by simp) q hq
      rcases List.mem_append.mp this with h | h
      · exact h
      · rcases List.mem_singleton.mp h with rfl
        exact hmem

lemma exists_ge_avg (l : List ℝ) (hne : l ≠ []) :
    ∃ x ∈ l, l.sum ≤ (l.length : ℝ) * x := by
  induction l with
  | nil => exact absurd rfl hne
  | cons a t ih =>
      rcases eq_or_ne t [] with rfl | hte
      · exact ⟨a, by simp, by simp⟩
      · obtain ⟨x, hx, havg⟩ := ih hte
        rcases le_total a x with hax | hxa
        · refine ⟨x, by simp [hx], ?_⟩
          simp only [List.sum_cons, List.length_cons]
          push_cast
          nlinarith
        · refine ⟨a, by simp, ?_⟩
          simp only [List.sum_cons, List.length_cons]
          push_cast
          have ht0 : (t.length : ℝ) * x ≤ (t.length : ℝ) * a := by
            apply mul_le_mul_of_nonneg_left hxa
            positivity
          nlinarith

lemma segLen_nonneg (p q : Pt2) : 0 ≤ segLen p q := Real.sqrt_nonneg _

lemma pathLength_nonneg (p : List Pt2) : 0 ≤ pathLength p := by
  apply List.sum_nonneg
  intro x hx
  obtain ⟨s, _, rfl⟩ := List.mem_map.mp hx
  exact segLen_nonneg _ _

lemma pathLength_pos_two_le (p : List Pt2) (h : 0 < pathLength p) : 2 ≤ p.length := by
  rcases p with _ | ⟨a, _ | ⟨b, rest⟩⟩
  · simp [pathLength, segsOf] at h
  · simp [pathLength, segsOf] at h
  · simp

lemma walkPath_ne_nil (p : List Pt2) (n : ℕ) (pLen : ℝ)
    (hp : 2 ≤ p.length) (hn : 1 ≤ n) : walkPath p n pLen ≠ [] := by
  rcases p with _ | ⟨a, _ | ⟨b, rest⟩⟩
  · simp at hp
  · simp at hp
  · intro hcontra
    rw [walkPath, if_neg (by simp)] at hcontra
    have h0 := List.filterMap_eq_nil_iff.mp hcontra 0 (List.mem_range.mpr (by omega : 0 < n))
    simp only [segsOf, findSegment, Nat.cast_zero, zero_mul] at h0
    rw [if_pos (by simpa using segLen_nonneg a b)] at h0
    exact Option.some_ne_none _ h0

/-- C4 counterexample: the stroke set `[[(0,0),(0,0)]]` has 2 total points (the
claim's notion of non-degenerate) but zero total arc length.  The walk places
no points at all, and the fill loop duplicates the zero-initialized buffer
entry, so the emitted buffer is entirely zeroed — contradicting the claim that
leftover slots are filled by duplicating already-placed points and that no slot
is left zeroed. -/
theorem resample_zero_counterexample :
    resample [[Pt2.mk 0 0, Pt2.mk 0 0]] 2 5 5 (fun _ => 0) (fun _ => 0)
        = some [0, 0, 0, 0, 0, 0] ∧
    placedPoints [[Pt2.mk 0 0, Pt2.mk 0 0]] 2 5 5 (fun _ => 0) = [] := by
  have hplen : pathLength [Pt2.mk 0 0, Pt2.mk 0 0] = 0 := by
    simp only [pathLength, segsOf, segLen, List.map_cons, List.map_nil, List.sum_cons,
      List.sum_nil]
    norm_num
  have hplaced : placedPoints [[Pt2.mk 0 0, Pt2.mk 0 0]] 2 5 5 (fun _ => 0) = [] := by
    simp [placedPoints, hplen]
  refine ⟨?_, hplaced⟩
  rw [resample, if_neg (by simp)]
  rw [hplaced]
  norm_num [fillLoop, flat3]

/-- C4 (amended): for a stroke set with at least 2 total points, positive
total arc length, and at most `targetCount` strokes, the resampler emits a
buffer of exactly `3 × targetCount` coordinates (`targetCount` points); at
least one point is placed by the stroke walk, and every emitted point is a
(possibly duplicated) walk-placed point, so no slot is left unfilled or
zeroed. -/
theorem resample_fills (paths : List (List Pt2)) (C : ℕ) (w h : ℝ) (jr fr : ℕ → ℝ)
    (hfr : ∀ j, 0 ≤ fr j ∧ fr j < 1)
    (h2 : 2 ≤ (paths.flatten).length)
    (hT : 0 < (paths.map pathLength).sum)
    (hk : paths.length ≤ C) :
    ∃ final : List (ℝ × ℝ × ℝ),
      resample paths C w h jr fr = some (flat3 final) ∧
      final.length = C ∧
      1 ≤ (placedPoints paths C w h jr).length ∧
      ∀ q ∈ final, q ∈ placedPoints paths C w h jr := by
  have hlen_le : (placedPoints paths C w h jr).length ≤ C := by
    simp only [placedPoints, List.length_map, List.enum_length, List.length_take]
    exact min_le_left _ _
  have hpne : paths ≠ [] := by
    intro hnil; rw [hnil] at hT; simp at hT
  have hone : 1 ≤ (placedPoints paths C w h jr).length := by
    obtain ⟨len, hlenmem, havg⟩ := exists_ge_avg (paths.map pathLength)
      (by simpa using hpne)
    obtain ⟨p, hpmem, rfl⟩ := List.mem_map.mp hlenmem
    have hklen : ((paths.map pathLength).length : ℝ) = (paths.length : ℝ) := by
      simp
    have hlpos : 0 < pathLength p := by
      by_contra hneg
      push_neg at hneg
      nlinarith [havg, hT, Nat.cast_nonneg (α := ℝ) (paths.map pathLength).length]
    have htle : (paths.map pathLength).sum ≤ pathLength p * C := by
      have hc : ((paths.length : ℝ)) ≤ (C : ℝ) := by exact_mod_cast hk
      calc (paths.map pathLength).sum
          ≤ ((paths.map pathLength).length : ℝ) * pathLength p := havg
        _ = (paths.length : ℝ) * pathLength p := by rw [hklen]
        _ ≤ (C : ℝ) * pathLength p := by
            apply mul_le_mul_of_nonneg_right hc (le_of_lt hlpos)
        _ = pathLength p * C := by ring
    have halloc : 1 ≤ allocPoints (pathLength p) ((paths.map pathLength).sum) C := by
      rw [allocPoints]
      have h1le : (1:ℝ) ≤ pathLength p / (paths.map pathLength).sum * C := by
        rw [div_mul_eq_mul_div, le_div_iff₀ hT]
        linarith
      have hfl : (1:ℤ) ≤ ⌊pathLength p / (paths.map pathLength).sum * C⌋ :=
        Int.le_floor.mpr (by exact_mod_cast h1le)
      omega
    have hwne : walkPath p (allocPoints (pathLength p) ((paths.map pathLength).sum) C)
        (pathLength p) ≠ [] :=
      walkPath_ne_nil p _ _ (pathLength_pos_two_le p hlpos) halloc
    obtain ⟨x, hx⟩ := List.exists_mem_of_ne_nil _ hwne
    have hxflat : x ∈ (paths.map fun q =>
        if (paths.map pathLength).sum = 0 then []
        else walkPath q (allocPoints (pathLength q) ((paths.map pathLength).sum) C)
          (pathLength q)).flatten := by
      apply List.mem_flatten.mpr
      refine ⟨walkPath p (allocPoints (pathLength p) ((paths.map pathLength).sum) C)
        (pathLength p), ?_, hx⟩
      have hmm := List.mem_map_of_mem (f := fun q =>
        if (paths.map pathLength).sum = 0 then []
        else walkPath q (allocPoints (pathLength q) ((paths.map pathLength).sum) C)
          (pathLength q)) hpmem
      simpa only [if_neg hT.ne'] using hmm
    have hC1 : 1 ≤ C := le_trans (by
      have := List.length_pos.mpr hpne
      omega) hk
    simp only [placedPoints, List.length_map, List.enum_length, List.length_take]
    have hflatpos : 0 < (paths.map fun q =>
        if (paths.map pathLength).sum = 0 then []
        else walkPath q (allocPoints (pathLength q) ((paths.map pathLength).sum) C)
          (pathLength q)).flatten.length :=
      List.length_pos.mpr (List.ne_nil_of_mem hxflat)
    omega
  refine ⟨fillLoop fr (C - (placedPoints paths C w h jr).length)
    (placedPoints paths C w h jr), ?_, ?_, hone, ?_⟩
  · rw [resample, if_neg (by omega)]
  · rw [fillLoop_length]; omega
  · intro q hq
    exact fillLoop_mem fr hfr _ _
      (by intro hnil; rw [hnil] at hone; simp at hone) q hq

/-- Witness for `resample_fills`: a single stroke of length 1 resampled to one
point. -/
theorem resample_fills_witness :
    ((∀ j : ℕ, (0:ℝ) ≤ (fun _ : ℕ => (0:ℝ)) j ∧ (fun _ : ℕ => (0:ℝ)) j < 1) ∧
     2 ≤ ([[Pt2.mk 0 0, Pt2.mk 0 1]].flatten).length ∧
     0 < ([[Pt2.mk 0 0, Pt2.mk 0 1]].map pathLength).sum ∧
     [[Pt2.mk 0 0, Pt2.mk 0 1]].length ≤ 1) ∧
    (∃ final : List (ℝ × ℝ × ℝ),
      resample [[Pt2.mk 0 0, Pt2.mk 0 1]] 1 5 5 (fun _ => 0) (fun _ => 0)
        = some (flat3 final) ∧
      final.length = 1 ∧
      1 ≤ (placedPoints [[Pt2.mk 0 0, Pt2.mk 0 1]] 1 5 5 (fun _ => 0)).length ∧
      ∀ q ∈ final, q ∈ placedPoints [[Pt2.mk 0 0, Pt2.mk 0 1]] 1 5 5 (fun _ => 0)) := by
  have h1 : pathLength [Pt2.mk 0 0, Pt2.mk 0 1] = 1 := by
    simp only [pathLength, segsOf, segLen, List.map_cons, List.map_nil, List.sum_cons,
      List.sum_nil]
    norm_num
  refine ⟨⟨fun j => by norm_num, by simp, by simp [h1], by simp⟩, ?_⟩
  exact resample_fills _ 1 5 5 _ _ (fun j => by norm_num) (by simp)
    (by simp [h1]) (by simp)

/-- C3 counterexample: two strokes of arc length 1 each with `targetCount = 3`.
The code allocates `Math.floor(1/2 * 3) = 1` point to the first stroke, while
the claimed formula `round(1/2 * 3) = 2` differs. -/
theorem alloc_round_counterexample :
    pathLength [Pt2.mk 0 0, Pt2.mk 0 1] = 1 ∧
    (List.map pathLength [[Pt2.mk 0 0, Pt2.mk 0 1], [Pt2.mk 5 5, Pt2.mk 5 6]]).sum = 2 ∧
    allocPoints (pathLength [Pt2.mk 0 0, Pt2.mk 0 1]) 2 3 = 1 ∧
    (round ((pathLength [Pt2.mk 0 0, Pt2.mk 0 1]) / 2 * 3)).toNat = 2 ∧
    (1 : ℕ) ≠ 2 := by
  have h1 : pathLength [Pt2.mk 0 0, Pt2.mk 0 1] = 1 := by
    simp only [pathLength, segsOf, segLen, List.map_cons, List.map_nil, List.sum_cons,
      List.sum_nil]
    norm_num
  have h2 : pathLength [Pt2.mk 5 5, Pt2.mk 5 6] = 1 := by
    simp only [pathLength, segsOf, segLen, List.map_cons, List.map_nil, List.sum_cons,
      List.sum_nil]
    norm_num
  refine ⟨h1, ?_, ?_, ?_, by omega⟩
  · simp only [List.map_cons, List.map_nil, List.sum_cons, List.sum_nil, h1, h2]
    norm_num
  · rw [h1, allocPoints]
    norm_num
  · rw [h1, round_eq]
    have hfl : ⌊(1:ℝ) / 2 * 3 + 1 / 2⌋ = 2 := by norm_num
    rw [hfl]
    rfl

/-- C3 (amended): the per-stroke point budget is
`floor(strokeLength / totalLength × targetCount)` (the code uses `Math.floor`,
not `round`); for two strokes whose lengths are in ratio 2 : 1 the budgets are
`⌊C/3⌋` and `⌊2C/3⌋`, which are in ratio 2 : 1 up to an error of at most 1. -/
theorem alloc_proportionality (s1 s2 : List Pt2) (C : ℕ)
    (h1 : 0 < pathLength s1) (h2 : pathLength s2 = 2 * pathLength s1) :
    allocPoints (pathLength s1) ((List.map pathLength [s1, s2]).sum) C = C / 3 ∧
    allocPoints (pathLength s2) ((List.map pathLength [s1, s2]).sum) C = 2 * C / 3 ∧
    2 * (C / 3) ≤ 2 * C / 3 ∧ 2 * C / 3 ≤ 2 * (C / 3) + 1 := by
  have htot : (List.map pathLength [s1, s2]).sum = 3 * pathLength s1 := by
    simp [h2]; ring
  have hL := h1.ne'
  refine ⟨?_, ?_, by omega, by omega⟩
  · rw [htot, allocPoints]
    have heq : pathLength s1 / (3 * pathLength s1) * C = (C : ℝ) / 3 := by
      field_simp
      ring
    rw [heq, show ((3:ℝ)) = ((3:ℕ):ℝ) by norm_num, Int.floor_toNat,
      Nat.floor_div_nat, Nat.floor_natCast]
  · rw [htot, h2, allocPoints]
    have heq : 2 * pathLength s1 / (3 * pathLength s1) * C = ((2 * C : ℕ) : ℝ) / 3 := by
      push_cast
      field_simp
      ring
    rw [heq, show ((3:ℝ)) = ((3:ℕ):ℝ) by norm_num, Int.floor_toNat,
      Nat.floor_div_nat, Nat.floor_natCast]

/-- Witness for `alloc_proportionality`: strokes of lengths 1 and 2 with
`targetCount = 4`, yielding budgets 1 and 2. -/
theorem alloc_proportionality_witness :
    (0 < pathLength [Pt2.mk 0 0, Pt2.mk 0 1] ∧
     pathLength [Pt2.mk 0 0, Pt2.mk 0 2] = 2 * pathLength [Pt2.mk 0 0, Pt2.mk 0 1]) ∧
    (allocPoints (pathLength [Pt2.mk 0 0, Pt2.mk 0 1])
        ((List.map pathLength [[Pt2.mk 0 0, Pt2.mk 0 1], [Pt2.mk 0 0, Pt2.mk 0 2]]).sum) 4 = 4 / 3 ∧
     allocPoints (pathLength [Pt2.mk 0 0, Pt2.mk 0 2])
        ((List.map pathLength [[Pt2.mk 0 0, Pt2.mk 0 1], [Pt2.mk 0 0, Pt2.mk 0 2]]).sum) 4 = 2 * 4 / 3 ∧
     2 * (4 / 3) ≤ 2 * 4 / 3 ∧ 2 * 4 / 3 ≤ 2 * (4 / 3) + 1) := by
  have h1 : pathLength [Pt2.mk 0 0, Pt2.mk 0 1] = 1 := by
    simp [pathLength, segsOf, segLen]
  have h2 : pathLength [Pt2.mk 0 0, Pt2.mk 0 2] = 2 := by
    simp only [pathLength, segsOf, segLen, List.map_cons, List.map_nil, List.sum_cons,
      List.sum_nil]
    rw [show ((0:ℝ) - 0) ^ 2 + ((2:ℝ) - 0) ^ 2 = 2 ^ 2 by norm_num,
      Real.sqrt_sq (by norm_num)]
    norm_num
  exact ⟨⟨by rw [h1]; norm_num, by rw [h1, h2]; norm_num⟩,
    alloc_proportionality _ _ 4 (by rw [h1]; norm_num) (by rw [h1, h2]; norm_num)⟩

/-! ### Totality of the particle generator -/

/-- Shared helper: the generated buffer always has exactly `3 × count`
entries, for every shape identifier (declared or not). -/
lemma generateParticles_length (shape : String) (count : ℕ) (rand : ℕ → ℕ → ℝ) :
    (generateParticles shape count rand).length = 3 * count := by
  rw [generateParticles, flat3_length, generateParticlesPoints, List.length_map,
    List.length_range]

/-- C1: for every shape identifier (declared or unrecognized) and every count,
`generateParticles` returns a buffer of exactly `3 × count` entries, the
count-zero buffer is empty, and every entry is bounded (finite): `|entry| ≤ 30`.
The model is total, so no input raises. -/
theorem generateParticles_total (shape : String) (count : ℕ) (rand : ℕ → ℕ → ℝ)
    (hr : ∀ i j, 0 ≤ rand i j ∧ rand i j < 1) :
    (generateParticles shape count rand).length = 3 * count ∧
    generateParticles shape 0 rand = [] ∧
    ∀ c ∈ generateParticles shape count rand, |c| ≤ 30 := by
  refine ⟨generateParticles_length shape count rand,
    by simp [generateParticles, generateParticlesPoints, flat3], ?_⟩
  intro c hc
  rw [generateParticles, flat3] at hc
  obtain ⟨p, hp, hcp⟩ := List.mem_flatMap.mp hc
  obtain ⟨i, hirange, rfl⟩ := List.mem_map.mp hp
  have hb := generatePoint_bound shape i count (rand i) (List.mem_range.mp hirange) (hr i)
  obtain ⟨hb1, hb2, hb3⟩ := hb
  simp only [List.mem_cons, List.mem_singleton] at hcp
  rcases hcp with rfl | rfl | rfl | hfalse
  · exact hb1
  · exact hb2
  · exact hb3
  · simp at hfalse

/-- Witness for `generateParticles_total`: the sphere shape, one particle,
constant stream `1/2`. -/
theorem generateParticles_total_witness :
    (∀ i j : ℕ, (0:ℝ) ≤ (fun _ _ : ℕ => (1/2:ℝ)) i j ∧ (fun _ _ : ℕ => (1/2:ℝ)) i j < 1) ∧
    ((generateParticles "Sphere" 1 (fun _ _ : ℕ => (1/2:ℝ))).length = 3 * 1 ∧
     generateParticles "Sphere" 0 (fun _ _ : ℕ => (1/2:ℝ)) = [] ∧
     ∀ c ∈ generateParticles "Sphere" 1 (fun _ _ : ℕ => (1/2:ℝ)), |c| ≤ 30) :=
  ⟨fun i j => by norm_num,
   generateParticles_total "Sphere" 1 (fun _ _ : ℕ => (1/2:ℝ)) (fun i j => by norm_num)⟩

/-- Witness for `integration_converges` at `l = 1/2`, `t = 0`, `x = 1`. -/
theorem integration_converges_witness :
    ((0:ℝ) < 1/2 ∧ (1/2:ℝ) < 1) ∧
    ((∀ k, |integrateIter (1/2) 0 1 (k + 1) - 0| = (1 - 1/2) * |integrateIter (1/2) 0 1 k - 0|) ∧
     (∀ k, ((1:ℝ) ≤ 0 → integrateIter (1/2) 0 1 k ≤ 0) ∧
       ((0:ℝ) ≤ 1 → 0 ≤ integrateIter (1/2) 0 1 k)) ∧
     (∀ k, |integrateIter (1/2) 0 1 (k + 1) - 0| ≤ |integrateIter (1/2) 0 1 k - 0|) ∧
     (∀ ε : ℝ, 0 < ε → ∃ k, |integrateIter (1/2) 0 1 k - 0| < ε)) :=
  ⟨⟨by norm_num, by norm_num⟩, integration_converges (1/2) 0 1 (by norm_num) (by norm_num)⟩

/-! ### Frame updater: mode exclusivity and target-buffer guard -/

/-- C7: in music mode a frame update is independent of the gesture input — two
updates from identical state, audio and randomness but different `handData`
produce identical states (hence identical position buffers); and in either
mode the stored positions advance only by the integration step toward the
mode's transformed target, so switching modes changes the target computation
but never discontinuously rewrites the current positions. -/
theorem mode_exclusivity :
    (∀ (audio : AudioData) (hd1 hd2 : HandData) (time : ℝ) (offsets : ℕ → ℝ)
        (warpR jitR : ℕ → ℝ × ℝ × ℝ) (tgt : Option (List ℝ)) (s : FrameState),
      frameUpdate true audio hd1 time offsets warpR jitR tgt s =
        frameUpdate true audio hd2 time offsets warpR jitR tgt s) ∧
    (∀ (music : Bool) (audio : AudioData) (hand : HandData) (time : ℝ)
        (offsets : ℕ → ℝ) (warpR jitR : ℕ → ℝ × ℝ × ℝ) (ts : List ℝ) (s : FrameState),
      (frameUpdate music audio hand time offsets warpR jitR (some ts) s).physics =
        s.physics.enum.map fun ic =>
          (integrateStep (lerpBaseOf music audio hand)
            (particleTarget music audio hand time (decayStep s.intensity) (offsets ic.1)
              (warpR ic.1) (jitR ic.1)
              (ts.getD (3 * ic.1) 0, ts.getD (3 * ic.1 + 1) 0, ts.getD (3 * ic.1 + 2) 0)
              ic.2).1 ic.2.1,
           integrateStep (lerpBaseOf music audio hand)
            (particleTarget music audio hand time (decayStep s.intensity) (offsets ic.1)
              (warpR ic.1) (jitR ic.1)
              (ts.getD (3 * ic.1) 0, ts.getD (3 * ic.1 + 1) 0, ts.getD (3 * ic.1 + 2) 0)
              ic.2).2.1 ic.2.2.1,
           integrateStep (lerpBaseOf music audio hand)
            (particleTarget music audio hand time (decayStep s.intensity) (offsets ic.1)
              (warpR ic.1) (jitR ic.1)
              (ts.getD (3 * ic.1) 0, ts.getD (3 * ic.1 + 1) 0, ts.getD (3 * ic.1 + 2) 0)
              ic.2).2.2 ic.2.2.2)) := by
  constructor
  · intro audio hd1 hd2 time offsets warpR jitR tgt s
    rfl
  · intro music audio hand time offsets warpR jitR ts s
    rfl

/-- C8 counterexample: with two particles and a target buffer of length
`3 ≠ 3 × 2`, the frame updater does not skip the transform — particle 0 is
integrated toward the first target triple and moves away from its current
position, contradicting "every particle holds its current position". -/
theorem wrong_length_counterexample :
    (frameUpdate true ⟨0, 0, 0⟩ ⟨0, 0, 0⟩ 0 (fun _ => 0) (fun _ => (0.5, 0.5, 0.5))
        (fun _ => (0.5, 0.5, 0.5)) (some [1, 0, 0])
        ⟨[(0, 0, 0), (0, 0, 0)], 0, 0, 0⟩).physics
      ≠ [(0, 0, 0), (0, 0, 0)] := by
  have hhead : (frameUpdate true ⟨0, 0, 0⟩ ⟨0, 0, 0⟩ 0 (fun _ => 0)
      (fun _ => (0.5, 0.5, 0.5)) (fun _ => (0.5, 0.5, 0.5)) (some [1, 0, 0])
      ⟨[(0, 0, 0), (0, 0, 0)], 0, 0, 0⟩).physics.head? = some (0.1, 0.01, 0) := by
    rw [show (frameUpdate true ⟨0, 0, 0⟩ ⟨0, 0, 0⟩ 0 (fun _ => 0)
      (fun _ => (0.5, 0.5, 0.5)) (fun _ => (0.5, 0.5, 0.5)) (some [1, 0, 0])
      ⟨[(0, 0, 0), (0, 0, 0)], 0, 0, 0⟩).physics =
      [(0, 0, 0), (0, 0, 0)].enum.map fun ic =>
        (integrateStep (lerpBaseOf true ⟨0, 0, 0⟩ ⟨0, 0, 0⟩)
          (particleTarget true ⟨0, 0, 0⟩ ⟨0, 0, 0⟩ 0 (decayStep 0) 0 (0.5, 0.5, 0.5)
            (0.5, 0.5, 0.5) (([1, 0, 0] : List ℝ).getD (3 * ic.1) 0,
             ([1, 0, 0] : List ℝ).getD (3 * ic.1 + 1) 0,
             ([1, 0, 0] : List ℝ).getD (3 * ic.1 + 2) 0) ic.2).1 ic.2.1,
         integrateStep (lerpBaseOf true ⟨0, 0, 0⟩ ⟨0, 0, 0⟩)
          (particleTarget true ⟨0, 0, 0⟩ ⟨0, 0, 0⟩ 0 (decayStep 0) 0 (0.5, 0.5, 0.5)
            (0.5, 0.5, 0.5) (([1, 0, 0] : List ℝ).getD (3 * ic.1) 0,
             ([1, 0, 0] : List ℝ).getD (3 * ic.1 + 1) 0,
             ([1, 0, 0] : List ℝ).getD (3 * ic.1 + 2) 0) ic.2).2.1 ic.2.2.1,
         integrateStep (lerpBaseOf true ⟨0, 0, 0⟩ ⟨0, 0, 0⟩)
          (particleTarget true ⟨0, 0, 0⟩ ⟨0, 0, 0⟩ 0 (decayStep 0) 0 (0.5, 0.5, 0.5)
            (0.5, 0.5, 0.5) (([1, 0, 0] : List ℝ).getD (3 * ic.1) 0,
             ([1, 0, 0] : List ℝ).getD (3 * ic.1 + 1) 0,
             ([1, 0, 0] : List ℝ).getD (3 * ic.1 + 2) 0) ic.2).2.2 ic.2.2.2)
      from rfl]
    have hdecay : decayStep 0 = 0 := by decide
    have htarget : particleTarget true ⟨0, 0, 0⟩ ⟨0, 0, 0⟩ 0 (decayStep 0) 0
        (0.5, 0.5, 0.5) (0.5, 0.5, 0.5) ((1 : ℝ), (0 : ℝ), (0 : ℝ)) ((0 : ℝ), (0 : ℝ), (0 : ℝ))
        = (1, 0.1, 0) := by
      rw [hdecay, particleTarget]
      rw [if_neg (by norm_num : ¬(0 : ℚ) < 0)]
      rw [if_neg (by norm_num : ¬((⟨0, 0, 0⟩ : AudioData).bass > 0.3))]
      simp only [expansionFactor, vortexStrength, noiseAmp, vortexSpin, if_pos rfl]
      norm_num
    simp only [List.enum, List.enumFrom, List.map, List.head?]
    rw [show ([1, 0, 0] : List ℝ).getD (3 * 0) 0 = (1 : ℝ) from rfl,
      show ([1, 0, 0] : List ℝ).getD (3 * 0 + 1) 0 = (0 : ℝ) from rfl,
      show ([1, 0, 0] : List ℝ).getD (3 * 0 + 2) 0 = (0 : ℝ) from rfl]
    rw [htarget]
    simp only [integrateStep, lerpBaseOf, if_pos rfl]
    norm_num
  intro hcontra
  rw [hcontra] at hhead
  simp only [List.head?, Option.some.injEq, Prod.mk.injEq] at hhead
  norm_num at hhead

/-- C8 (amended): the frame updater skips the physics transform exactly when
the target buffer is absent (each particle holds its position, while rotation
and decay still advance); a wrong-length buffer never reaches the updater,
because the target construction resamples a mismatched custom buffer to
exactly `3 × n` entries and the procedural generator always emits `3 × n`
entries. -/
theorem target_guard :
    (∀ (music : Bool) (audio : AudioData) (hand : HandData) (time : ℝ)
        (offsets : ℕ → ℝ) (warpR jitR : ℕ → ℝ × ℝ × ℝ) (s : FrameState),
      (frameUpdate music audio hand time offsets warpR jitR none s).physics = s.physics) ∧
    (∀ (currentShape : String) (customPoints : Option (List ℝ)) (n : ℕ)
        (genRand : ℕ → ℕ → ℝ) (resR : ℕ → ℝ),
      (computeTargets currentShape customPoints n genRand resR).length = 3 * n) := by
  constructor
  · intro music audio hand time offsets warpR jitR s
    rfl
  · intro currentShape customPoints n genRand resR
    rcases customPoints with _ | cp
    · rw [computeTargets.eq_def]
      split_ifs with h1 <;> exact generateParticles_length _ _ _
    · rw [computeTargets.eq_def]
      split_ifs with h1
      · dsimp only
        split_ifs with h2
        · rw [flat3_length, List.length_map, List.length_range]
        · omega
      · exact generateParticles_length _ _ _

/-- C9: the vortex divisor `dist + 0.1` is bounded below by `0.1` — never
zero, even for a particle exactly on the vertical axis — the
distance-dependent spin contribution is bounded by `10 × |vortexStrength|`,
the rotation by the spin angle preserves the squared horizontal radius (so the
rotated coordinates stay finite), and the `ParticleScene.tsx` variant
`spinSpeed` lies in `[0.2, 5.2]`. -/
theorem vortex_divisor_safe (time high vs tx tz : ℝ) :
    0.1 ≤ Real.sqrt (tx ^ 2 + tz ^ 2) + 0.1 ∧
    Real.sqrt (tx ^ 2 + tz ^ 2) + 0.1 ≠ 0 ∧
    |1.0 / (Real.sqrt (tx ^ 2 + tz ^ 2) + 0.1) * vs| ≤ 10 * |vs| ∧
    (tx * Real.cos (vortexSpin time high vs tx tz)
        - tz * Real.sin (vortexSpin time high vs tx tz)) ^ 2
      + (tx * Real.sin (vortexSpin time high vs tx tz)
        + tz * Real.cos (vortexSpin time high vs tx tz)) ^ 2 = tx ^ 2 + tz ^ 2 ∧
    0.2 ≤ spinSpeedPS tx tz ∧ spinSpeedPS tx tz ≤ 5.2 := by
  have hs : 0 ≤ Real.sqrt (tx ^ 2 + tz ^ 2) := Real.sqrt_nonneg _
  have hlow : (0.1 : ℝ) ≤ Real.sqrt (tx ^ 2 + tz ^ 2) + 0.1 := by linarith
  have hpos : (0 : ℝ) < Real.sqrt (tx ^ 2 + tz ^ 2) + 0.1 := by linarith
  have hinv : 1.0 / (Real.sqrt (tx ^ 2 + tz ^ 2) + 0.1) ≤ 10 := by
    rw [div_le_iff₀ hpos]
    linarith
  have hinv0 : 0 ≤ 1.0 / (Real.sqrt (tx ^ 2 + tz ^ 2) + 0.1) := by positivity
  refine ⟨hlow, ne_of_gt hpos, ?_, ?_, ?_, ?_⟩
  · rw [abs_mul, abs_of_nonneg hinv0]
    exact mul_le_mul_of_nonneg_right hinv (abs_nonneg vs)
  · have hpyth := Real.sin_sq_add_cos_sq (vortexSpin time high vs tx tz)
    nlinarith [hpyth]
  · rw [spinSpeedPS]
    linarith [hinv0]
  · rw [spinSpeedPS]
    linarith [hinv]

end Spec2Proof
